import Mathlib

/-!
Shallow embedding of `jules-scratch/verification/verify_edit_route.py`
(the only source file of the `traillog` repository).

The script is a straight-line Playwright scenario: a fixed sequence of
browser-driver calls, each of which either performs an action or asserts a
condition on the observed page.  We embed:

* the two compiled regular expressions the script builds with `re.compile`
  (a tiny token-based matcher with Python `re.search` semantics, which is
  what Playwright applies both to `to_have_url` and to regex `name=`
  filters);
* Playwright's locator-matching rules used by the script:
  `get_by_role(..., name="...")` and `get_by_label("...")` match the
  accessible name / label case-insensitively by substring (the `exact`
  option defaults to `False`), `get_by_text("...")` likewise, and a regex
  `name=` is matched by a case-sensitive unanchored search; role queries
  only see non-hidden elements (`include_hidden` defaults to `False`), and
  locators are strict: acting on a locator that resolves to several
  elements fails, `.first` lifts the strictness;
* the fixed call sequence of the script (`script`), with every argument the
  literal that appears in the source, including the screenshot call whose
  `full_page` option is left at its `False` default;
* an interpreter over an oracle (the external browser/application): each
  step succeeds or fails depending only on the page state the driver
  observes at that moment; the first failure aborts the run (an uncaught
  raised error in the Python source); a successful screenshot call
  overwrites the file at its fixed path with the captured bytes.
-/

set_option autoImplicit false

namespace Traillog

/-- Tokens of the (tiny) regular-expression fragment the script uses:
literal characters and `\d+`.  Both patterns built by the source
(`r"\/routes\/edit\/\d+"` and `"Edit route"`) compile to such token
lists. -/
inductive RTok where
  | lit (c : Char)
  | digitPlus
deriving DecidableEq

/-- Does the token list match a prefix of `cs`?  (`\d+` is matched
greedily-with-backtracking, exactly the language of the pattern.) -/
def matchHere : List RTok → List Char → Bool
  | ts, [] => ts.isEmpty
  | [], _ :: _ => true
  | RTok.lit c :: ts, d :: cs => c == d && matchHere ts cs
  | RTok.digitPlus :: ts, c :: cs =>
      c.isDigit && (matchHere ts cs || matchHere (RTok.digitPlus :: ts) cs)

/-- Python `re.search` semantics: the pattern may match starting at any
position of the subject.  This is what Playwright applies both in
`to_have_url(regex)` and when filtering accessible names by a regex. -/
def rsearch (ts : List RTok) : List Char → Bool
  | [] => matchHere ts []
  | c :: cs => matchHere ts (c :: cs) || rsearch ts cs

/-- Compile a string of plain characters to literal tokens. -/
def litToks (s : String) : List RTok :=
  s.toList.map RTok.lit

/-- The compiled form of `re.compile(r"\/routes\/edit\/\d+")` (line 26 of
the source; the escaped slashes are literal `/`). -/
def editUrlToks : List RTok :=
  litToks "/routes/edit/" ++ [RTok.digitPlus]

/-- The compiled form of `re.compile("Edit route")` (line 22 of the
source): all literals, no flags, hence case-sensitive. -/
def editRouteToks : List RTok :=
  litToks "Edit route"

/-- Lower-case a character list (for case-insensitive matching). -/
def lowerChars (cs : List Char) : List Char :=
  cs.map Char.toLower

/-- Does `pat` occur at the very start of the subject? -/
def prefixChars : List Char → List Char → Bool
  | [], _ => true
  | _ :: _, [] => false
  | c :: cs, d :: ds => c == d && prefixChars cs ds

/-- Does `pat` occur anywhere in the subject (contiguously)? -/
def subChars (pat : List Char) : List Char → Bool
  | [] => prefixChars pat []
  | d :: ds => prefixChars pat (d :: ds) || subChars pat ds

/-- Case-insensitive substring test: Playwright's default (`exact=False`)
matching of a string against an accessible name, a label, or text. -/
def containsCI (pattern s : String) : Bool :=
  subChars (lowerChars pattern.toList) (lowerChars s.toList)

/-- The `name=` argument of a `get_by_role` call: a plain string (matched
case-insensitively by substring) or a compiled regex (matched by
case-sensitive search). -/
inductive NameArg where
  | str (s : String)
  | regex (ts : List RTok)
deriving DecidableEq

/-- How a `name=` argument is matched against an accessible name. -/
def nameMatches : NameArg → String → Bool
  | NameArg.str p, n => containsCI p n
  | NameArg.regex ts, n => rsearch ts n.toList

/-- A rendered element as the driver observes it: accessible role,
accessible name, text content, and visibility. -/
structure Element where
  role : String
  name : String
  text : String
  visible : Bool
deriving DecidableEq

/-- A form control together with its associated accessible label and its
current value. -/
structure LabeledField where
  label : String
  value : String
deriving DecidableEq

/-- The page state the driver observes at one moment: current URL, the CSS
selectors that resolve to an element, the rendered elements, and the
labelled form controls. -/
structure PageState where
  url : String
  selectors : List String
  elements : List Element
  fields : List LabeledField
deriving DecidableEq

/-- The elements a `get_by_role(role, name=nm)` locator resolves to, in
document order.  Role queries only see non-hidden elements
(`include_hidden` defaults to `False`). -/
def roleMatches (role : String) (nm : NameArg) (st : PageState) : List Element :=
  st.elements.filter (fun e => e.role == role && e.visible && nameMatches nm e.name)

/-- The elements a `get_by_text(t)` locator resolves to (default
`exact=False`: case-insensitive substring on the text content). -/
def textMatches (t : String) (st : PageState) : List Element :=
  st.elements.filter (fun e => containsCI t e.text)

/-- Does a `get_by_label(lbl)` locator (default `exact=False`) match this
form control? -/
def labelFieldMatches (lbl : String) (f : LabeledField) : Bool :=
  containsCI lbl f.label

/-- The form controls a `get_by_label(lbl)` locator resolves to. -/
def labelMatches (lbl : String) (st : PageState) : List LabeledField :=
  st.fields.filter (labelFieldMatches lbl)

/-- One driver call of the script.  `screenshot` carries the `full_page`
option explicitly; the source leaves it at its default `false`. -/
inductive Step where
  | goto (url : String)
  | clickAt (selector : String) (x y : Nat)
  | clickRole (role : String) (nm : NameArg)
  | clickFirstRole (role : String) (nm : NameArg)
  | assertUrl (ts : List RTok)
  | assertVisibleRole (role : String) (nm : NameArg)
  | assertVisibleText (t : String)
  | fillLabel (lbl : String) (value : String)
  | screenshot (path : String) (fullPage : Bool)
deriving DecidableEq

/-- Would this step succeed against the observed page state?  Locators are
strict: clicking or filling a locator that resolves to zero or to several
elements raises; `.first` only requires the match list to be nonempty;
assertions on a locator require it to resolve to exactly one element. -/
def evalStep (st : PageState) : Step → Bool
  | Step.goto _ => true
  | Step.clickAt sel _ _ => st.selectors.contains sel
  | Step.clickRole role nm => (roleMatches role nm st).length == 1
  | Step.clickFirstRole role nm => !(roleMatches role nm st).isEmpty
  | Step.assertUrl ts => rsearch ts st.url.toList
  | Step.assertVisibleRole role nm => (roleMatches role nm st).length == 1
  | Step.assertVisibleText t =>
      match textMatches t st with
      | [e] => e.visible
      | _ => false
  | Step.fillLabel lbl _ => (labelMatches lbl st).length == 1
  | Step.screenshot _ _ => true

/-- Which element a click step activates (the source clicks
`locator.first` for the edit link, so the first match is taken). -/
def clickTarget (st : PageState) : Step → Option Element
  | Step.clickRole role nm =>
      match roleMatches role nm st with
      | [e] => some e
      | _ => none
  | Step.clickFirstRole role nm => (roleMatches role nm st).head?
  | _ => none

/-- The effect of `fill` on the matched control: its value is replaced
outright by the argument (Playwright `fill` sets the value, it never
appends). -/
def fillFields (lbl v : String) : List LabeledField → List LabeledField
  | [] => []
  | f :: fs =>
      if labelFieldMatches lbl f then { f with value := v } :: fs
      else f :: fillFields lbl v fs

/-- The fixed screenshot path of line 43 of the source. -/
def verificationPath : String :=
  "jules-scratch/verification/verification.png"

/-- The script: the thirteen driver calls of `test_edit_route_name`, in
source order, every argument the literal from the source. -/
def script : List Step :=
  [ Step.goto "http://localhost:5174/routes/create",
    Step.clickAt "#map" 100 100,
    Step.clickAt "#map" 200 200,
    Step.clickRole "button" (NameArg.str "Save"),
    Step.goto "http://localhost:5174/routes",
    Step.clickFirstRole "link" (NameArg.regex editRouteToks),
    Step.assertUrl editUrlToks,
    Step.assertVisibleRole "heading" (NameArg.str "Edit Route"),
    Step.fillLabel "Name" "New Route Name",
    Step.clickRole "button" (NameArg.str "Save Changes"),
    Step.assertVisibleRole "heading" (NameArg.str "Saved Routes"),
    Step.assertVisibleText "New Route Name",
    Step.screenshot verificationPath false ]

/-- The external world as the script experiences it: at each step index
the driver either times out (`none`) or observes a page state; a
screenshot call at index `i` captures `imageAt i`. -/
structure Oracle where
  pageAt : Nat → Option PageState
  imageAt : Nat → List Nat

/-- Step `s`, issued as the `i`-th call, succeeds iff the driver observes
a page on which the step's action or assertion goes through. -/
def stepOk (o : Oracle) (i : Nat) (s : Step) : Bool :=
  match o.pageAt i with
  | none => false
  | some st => evalStep st s

/-- Does the whole remaining call list succeed?  (Python: the function
body runs to completion without an exception.) -/
def runOk (o : Oracle) : Nat → List Step → Bool
  | _, [] => true
  | i, s :: rest => stepOk o i s && runOk o (i + 1) rest

/-- The calls actually issued: each call is issued after all previous ones
succeeded; the first failing call raises, so nothing after it is
issued. -/
def runTrace (o : Oracle) : Nat → List Step → List Step
  | _, [] => []
  | i, s :: rest => if stepOk o i s then s :: runTrace o (i + 1) rest else [s]

/-- Length of the maximal successful prefix of the call list. -/
def okCount (o : Oracle) : Nat → List Step → Nat
  | _, [] => 0
  | i, s :: rest => if stepOk o i s then okCount o (i + 1) rest + 1 else 0

/-- The local filesystem, as a map from paths to file contents. -/
def FS : Type :=
  String → Option (List Nat)

/-- Writing a file replaces whatever was stored at the path. -/
def fsWrite (p : String) (bytes : List Nat) (fs : FS) : FS :=
  fun q => if q = p then some bytes else fs q

/-- The filesystem effect of a successful step: only the screenshot call
touches the filesystem. -/
def stepEffect (o : Oracle) (i : Nat) (s : Step) (fs : FS) : FS :=
  match s with
  | Step.screenshot p _ => fsWrite p (o.imageAt i) fs
  | _ => fs

/-- Run the call list over the filesystem: a successful step applies its
effect, the first failing step raises and leaves the filesystem as it
is. -/
def runFS (o : Oracle) : Nat → List Step → FS → FS
  | _, [], fs => fs
  | i, s :: rest, fs =>
      if stepOk o i s then runFS o (i + 1) rest (stepEffect o i s fs) else fs

/-- The filesystem after every step of the list has run and succeeded. -/
def effectsFold (o : Oracle) : Nat → List Step → FS → FS
  | _, [], fs => fs
  | i, s :: rest, fs => effectsFold o (i + 1) rest (stepEffect o i s fs)

/-- The pattern of the `full_page` option across the script's calls. -/
def screenshotFullPage : Step → Option Bool
  | Step.screenshot _ fp => some fp
  | _ => none

/-- The edit-link click, call number 5 of the script (source line 23). -/
def editLinkStep : Step :=
  Step.clickFirstRole "link" (NameArg.regex editRouteToks)

/-- A page whose only element is a single visible heading named `n`. -/
def oneHeading (n : String) : PageState :=
  { url := "http://localhost:5174/routes/edit/1"
    selectors := []
    elements := [{ role := "heading", name := n, text := n, visible := true }]
    fields := [] }

/-- A page with no elements at all (no routes, hence no edit link). -/
def emptyPage : PageState :=
  { url := "http://localhost:5174/routes"
    selectors := []
    elements := []
    fields := [] }

/-- The create-route page as a plausible observation: the map element and
the Save button. -/
def createPage : PageState :=
  { url := "http://localhost:5174/routes/create"
    selectors := ["#map"]
    elements := [{ role := "button", name := "Save", text := "Save", visible := true }]
    fields := [] }

/-- The edit link of the saved-routes list. -/
def editLinkEl : Element :=
  { role := "link", name := "Edit route Morning Walk", text := "Edit route Morning Walk",
    visible := true }

/-- The saved-routes page before the edit. -/
def listPage : PageState :=
  { url := "http://localhost:5174/routes"
    selectors := []
    elements :=
      [{ role := "heading", name := "Saved Routes", text := "Saved Routes", visible := true },
       editLinkEl]
    fields := [] }

/-- The edit page of route 1. -/
def editPage : PageState :=
  { url := "http://localhost:5174/routes/edit/1"
    selectors := []
    elements :=
      [{ role := "heading", name := "Edit Route", text := "Edit Route", visible := true },
       { role := "button", name := "Save Changes", text := "Save Changes", visible := true }]
    fields := [{ label := "Name", value := "Morning Walk" }] }

/-- The saved-routes page after the edit, still displaying a route with
the old name `oldName` next to the renamed one. -/
def finalPage (oldName : String) : PageState :=
  { url := "http://localhost:5174/routes"
    selectors := []
    elements :=
      [{ role := "heading", name := "Saved Routes", text := "Saved Routes", visible := true },
       { role := "listitem", name := "New Route Name", text := "New Route Name", visible := true },
       { role := "listitem", name := oldName, text := oldName, visible := true }]
    fields := [] }

/-- The pages the driver observes at calls 0..12 in a run where every step
goes through and the final list still shows the old name. -/
def pagesFor (oldName : String) : List PageState :=
  [createPage, createPage, createPage, createPage,
   listPage, listPage,
   editPage, editPage, editPage, editPage,
   finalPage oldName, finalPage oldName, finalPage oldName]

/-- Bytes of a captured image (the PNG signature). -/
def pngBytes : List Nat :=
  [137, 80, 78, 71, 13, 10, 26, 10]

/-- An oracle under which every call of the script succeeds while the old
route name `oldName` stays visible on the final list page. -/
def okOracle (oldName : String) : Oracle :=
  { pageAt := fun i => (pagesFor oldName).get? i
    imageAt := fun _ => pngBytes }

/-- Same observed pages as `okOracle "Morning Walk"` but a different
captured image: used to compare two runs with equal page responses. -/
def okOracle2 : Oracle :=
  { pageAt := fun i => (pagesFor "Morning Walk").get? i
    imageAt := fun _ => [1, 2, 3] }

/-- An oracle under which the driver times out at once (for instance, the
application is not running). -/
def failOracle : Oracle :=
  { pageAt := fun _ => none
    imageAt := fun _ => [] }

/-- An oracle that behaves until the edit-link click, which then times out
because the list page has no routes at all. -/
def noLinkOracle : Oracle :=
  { pageAt := fun i =>
      if i ≤ 3 then some createPage
      else if i ≤ 5 then some emptyPage
      else none
    imageAt := fun _ => [] }

/-- An empty filesystem. -/
def emptyFS : FS :=
  fun _ => none

/-- Example form-control list: a single input labelled "Route Name" whose
prior value is the default route name. -/
def demoFields : List LabeledField :=
  [{ label := "Route Name", value := "Morning Walk" }]

/-- Modelled from the spec's words, for comparison with the source
pattern: the URL contains `/routes/edit/` followed by at least one digit.
This is what the unanchored search of `editUrlToks` actually accepts. -/
def editUrlAmended (cs : List Char) : Prop :=
  ∃ pre d rest, cs = pre ++ "/routes/edit/".toList ++ d :: rest ∧ d.isDigit = true

/-! ## General lemmas about the interpreter -/

/-- The trace is the maximal successful prefix plus the first failing call
(if any), and the run succeeds exactly when every call succeeds. -/
theorem runTrace_take_okCount (o : Oracle) (l : List Step) (n : Nat) :
    runTrace o n l = l.take (okCount o n l + 1) ∧
      (runOk o n l = true ↔ okCount o n l = l.length) := by
  induction l generalizing n with
  | nil => simp [runTrace, okCount, runOk]
  | cons s rest ih =>
    cases h : stepOk o n s with
    | true =>
      have ih' := ih (n + 1)
      simp [runTrace, okCount, runOk, h, ih'.1, ih'.2]
    | false =>
      simp [runTrace, okCount, runOk, h]

/-- Splitting a run across an append of call lists. -/
theorem runOk_append (o : Oracle) (l₁ l₂ : List Step) (n : Nat) :
    runOk o n (l₁ ++ l₂) = (runOk o n l₁ && runOk o (n + l₁.length) l₂) := by
  induction l₁ generalizing n with
  | nil => simp [runOk]
  | cons s rest ih =>
    have harith : n + 1 + rest.length = n + (rest.length + 1) := by omega
    simp [runOk, ih (n + 1), harith, Bool.and_assoc]

/-- A failure inside the first part of the call list means the second part
is never reached: the trace stops inside the first part. -/
theorem runTrace_append_of_fail (o : Oracle) (l₁ l₂ : List Step) :
    ∀ n, runOk o n l₁ = false → runTrace o n (l₁ ++ l₂) = runTrace o n l₁ := by
  induction l₁ with
  | nil => intro n h; simp [runOk] at h
  | cons s rest ih =>
    intro n h
    cases hs : stepOk o n s with
    | true =>
      have hrest : runOk o (n + 1) rest = false := by
        simpa [runOk, hs] using h
      simp [runTrace, hs, ih (n + 1) hrest]
    | false =>
      simp [runTrace, hs]

/-- A failure inside the first part of the call list means the second part
never touches the filesystem. -/
theorem runFS_append_of_fail (o : Oracle) (l₁ l₂ : List Step) :
    ∀ n fs, runOk o n l₁ = false → runFS o n (l₁ ++ l₂) fs = runFS o n l₁ fs := by
  induction l₁ with
  | nil => intro n fs h; simp [runOk] at h
  | cons s rest ih =>
    intro n fs h
    cases hs : stepOk o n s with
    | true =>
      have hrest : runOk o (n + 1) rest = false := by
        simpa [runOk, hs] using h
      simp [runFS, hs, ih (n + 1) _ hrest]
    | false =>
      simp [runFS, hs]

/-- A call list with no screenshot call leaves the filesystem unchanged,
whether or not its calls succeed. -/
theorem runFS_eq_of_no_shot (o : Oracle) (l : List Step) :
    ∀ n fs, (∀ p b, Step.screenshot p b ∉ l) → runFS o n l fs = fs := by
  induction l with
  | nil => intro n fs _; rfl
  | cons s rest ih =>
    intro n fs h
    have hrest : ∀ p b, Step.screenshot p b ∉ rest := fun p b hm =>
      h p b (List.mem_cons_of_mem _ hm)
    have heff : stepEffect o n s fs = fs := by
      cases s <;> try rfl
      exact absurd (List.mem_cons_self _ _) (h _ _)
    show (if stepOk o n s = true then runFS o (n + 1) rest (stepEffect o n s fs) else fs) = fs
    rw [heff]
    by_cases hok : stepOk o n s = true
    · rw [if_pos hok]; exact ih (n + 1) fs hrest
    · rw [if_neg hok]

/-- A fully successful run applies exactly the unconditional fold of the
step effects. -/
theorem runFS_of_ok (o : Oracle) (l : List Step) :
    ∀ n fs, runOk o n l = true → runFS o n l fs = effectsFold o n l fs := by
  induction l with
  | nil => intro n fs _; rfl
  | cons s rest ih =>
    intro n fs h
    have hs : stepOk o n s = true := by
      cases hs : stepOk o n s with
      | true => rfl
      | false => rw [runOk, hs] at h; simp at h
    have hrest : runOk o (n + 1) rest = true := by
      simpa [runOk, hs] using h
    show (if stepOk o n s = true then runFS o (n + 1) rest (stepEffect o n s fs) else fs) = _
    rw [if_pos hs]
    exact ih (n + 1) _ hrest

/-- Two oracles that report the same page observations drive the script
through the same calls. -/
theorem runTrace_congr (o₁ o₂ : Oracle) (l : List Step) :
    ∀ n, (∀ i, o₁.pageAt i = o₂.pageAt i) → runTrace o₁ n l = runTrace o₂ n l := by
  induction l with
  | nil => intro n _; rfl
  | cons s rest ih =>
    intro n h
    have hs : stepOk o₁ n s = stepOk o₂ n s := by
      simp [stepOk, h n]
    rw [runTrace, runTrace, hs, ih (n + 1) h]

/-! ## Lemmas about the regular-expression matcher -/

/-- The empty pattern matches everywhere. -/
theorem matchHere_nil (cs : List Char) : matchHere [] cs = true := by
  cases cs <;> rfl

/-- A block of literal tokens is matched by exactly that block of
characters, after which the remaining pattern takes over. -/
theorem matchHere_lits (ws : List Char) (ts : List RTok) :
    ∀ cs, matchHere (ws.map RTok.lit ++ ts) cs = true ↔
      ∃ rest, cs = ws ++ rest ∧ matchHere ts rest = true := by
  induction ws with
  | nil =>
    intro cs
    constructor
    · intro hm; exact ⟨cs, rfl, by simpa using hm⟩
    · rintro ⟨rest, rfl, hm⟩; simpa using hm
  | cons w ws ih =>
    intro cs
    cases cs with
    | nil =>
      simp [matchHere, List.isEmpty]
    | cons d ds =>
      rw [List.map_cons, List.cons_append, matchHere]
      simp only [Bool.and_eq_true, beq_iff_eq, ih ds]
      constructor
      · rintro ⟨rfl, rest, rfl, hm⟩
        exact ⟨rest, rfl, hm⟩
      · rintro ⟨rest, heq, hm⟩
        rw [List.cons_append] at heq
        injection heq with h1 h2
        exact ⟨h1.symm, rest, h2, hm⟩

/-- The pattern `\d+` alone matches a string iff its first character is a
digit. -/
theorem matchHere_digitPlus (cs : List Char) :
    matchHere [RTok.digitPlus] cs = true ↔
      ∃ d rest, cs = d :: rest ∧ d.isDigit = true := by
  cases cs with
  | nil => simp [matchHere, List.isEmpty]
  | cons c cs =>
    rw [matchHere]
    simp [matchHere_nil]

/-- `re.search` semantics: the pattern may start at any split of the
subject. -/
theorem rsearch_iff (ts : List RTok) :
    ∀ cs, rsearch ts cs = true ↔
      ∃ pre rest, cs = pre ++ rest ∧ matchHere ts rest = true := by
  intro cs
  induction cs with
  | nil =>
    rw [rsearch]
    constructor
    · intro hm; exact ⟨[], [], rfl, hm⟩
    · rintro ⟨pre, rest, heq, hm⟩
      obtain ⟨rfl, rfl⟩ := List.append_eq_nil.mp heq.symm
      exact hm
  | cons c cs ih =>
    rw [rsearch]
    simp only [Bool.or_eq_true, ih]
    constructor
    · rintro (hm | ⟨pre, rest, rfl, hm⟩)
      · exact ⟨[], c :: cs, rfl, hm⟩
      · exact ⟨c :: pre, rest, rfl, hm⟩
    · rintro ⟨pre, rest, heq, hm⟩
      cases pre with
      | nil =>
        left
        rw [List.nil_append] at heq
        rw [heq]
        exact hm
      | cons p pre =>
        right
        rw [List.cons_append] at heq
        injection heq with h1 h2
        subst h1
        exact ⟨pre, rest, h2, hm⟩

/-! ## Lemmas about substring matching and fill -/

/-- A list is a prefix of itself followed by anything. -/
theorem prefixChars_append (cs rest : List Char) : prefixChars cs (cs ++ rest) = true := by
  induction cs with
  | nil => rfl
  | cons c cs ih => simp [prefixChars, ih]

/-- If the pattern occurs at the start of `tail`, it occurs in `a ++ tail`. -/
theorem subChars_of_append (pat : List Char) :
    ∀ a tail, prefixChars pat tail = true → subChars pat (a ++ tail) = true := by
  intro a
  induction a with
  | nil =>
    intro tail h
    cases tail with
    | nil => simpa [subChars] using h
    | cons t ts => simp [subChars, h]
  | cons x xs ih =>
    intro tail h
    simp [subChars, ih tail h]

/-- `fill` on the form-control list: the first control matched by the
label gets exactly the new value, every other control keeps its entry. -/
theorem fillFields_spec (v : String) (l : List LabeledField) :
    ∀ i f, l.get? i = some f → labelFieldMatches "Name" f = true →
      (∀ j g, j < i → l.get? j = some g → labelFieldMatches "Name" g = false) →
      (fillFields "Name" v l).get? i = some { label := f.label, value := v } ∧
        ∀ j, j ≠ i → (fillFields "Name" v l).get? j = l.get? j := by
  induction l with
  | nil => intro i f hi; simp at hi
  | cons g rest ih =>
    intro i f hi hm hfirst
    cases i with
    | zero =>
      rw [List.get?] at hi
      injection hi with hi
      subst hi
      have hfill : fillFields "Name" v (g :: rest) = { g with value := v } :: rest := by
        rw [fillFields, if_pos hm]
      refine ⟨by rw [hfill]; rfl, ?_⟩
      intro j hj
      cases j with
      | zero => exact absurd rfl hj
      | succ j' => rw [hfill]; rfl
    | succ i' =>
      have hg : labelFieldMatches "Name" g = false := hfirst 0 g (Nat.succ_pos i') rfl
      have hfill : fillFields "Name" v (g :: rest) = g :: fillFields "Name" v rest := by
        rw [fillFields, if_neg (by simp [hg])]
      have hi' : rest.get? i' = some f := hi
      have hfirst' : ∀ j g', j < i' → rest.get? j = some g' →
          labelFieldMatches "Name" g' = false := by
        intro j g' hj hget
        exact hfirst (j + 1) g' (Nat.succ_lt_succ hj) hget
      obtain ⟨h1, h2⟩ := ih i' f hi' hm hfirst'
      refine ⟨by rw [hfill]; exact h1, ?_⟩
      intro j hj
      cases j with
      | zero => rw [hfill]; rfl
      | succ j' =>
        have hj' : j' ≠ i' := by
          intro hcon; exact hj (by rw [hcon])
        rw [hfill]
        exact h2 j' hj'

/-! ## Claims -/

/-- C1 (counterexample): the claim says the URL assertion of line 26 fails
for every URL whose identifier is non-numeric.  It does not: the regex
`\/routes\/edit\/\d+` is applied by unanchored search, so the URL
`http://localhost:5174/routes/edit/12abc`, whose identifier `12abc` is not
a number, satisfies the assertion. -/
theorem c1_counterexample :
    evalStep
        { url := "http://localhost:5174/routes/edit/12abc", selectors := [],
          elements := [], fields := [] }
        (Step.assertUrl editUrlToks) = true ∧
      Step.assertUrl editUrlToks ∈ script ∧
      "12abc".toList.all Char.isDigit = false := by
  decide

/-- C1 (amended): the URL assertion passes exactly when the current URL
contains the substring `/routes/edit/` immediately followed by at least
one digit.  The search is unanchored: it does not require the identifier
to consist of digits only, nor the path to end after them. -/
theorem c1_theorem (st : PageState) :
    evalStep st (Step.assertUrl editUrlToks) = true ↔ editUrlAmended st.url.toList := by
  rw [show evalStep st (Step.assertUrl editUrlToks) = rsearch editUrlToks st.url.toList from
    rfl]
  rw [show editUrlToks = "/routes/edit/".toList.map RTok.lit ++ [RTok.digitPlus] from rfl]
  rw [rsearch_iff]
  unfold editUrlAmended
  constructor
  · rintro ⟨pre, rest, heq, hm⟩
    obtain ⟨rest2, rfl, hm2⟩ := (matchHere_lits _ _ _).mp hm
    obtain ⟨d, rest3, rfl, hd⟩ := (matchHere_digitPlus _).mp hm2
    refine ⟨pre, d, rest3, ?_, hd⟩
    rw [heq, List.append_assoc]
  · rintro ⟨pre, d, rest, heq, hd⟩
    refine ⟨pre, "/routes/edit/".toList ++ d :: rest, ?_, ?_⟩
    · rw [heq, List.append_assoc]
    · exact (matchHere_lits _ _ _).mpr
        ⟨d :: rest, rfl, (matchHere_digitPlus _).mpr ⟨d, rest, rfl, hd⟩⟩

/-- C4 (counterexample): the claim says the final step captures a
full-page screenshot.  It does not: the source passes only `path=`, so
`full_page` stays at its `False` default — the script's one screenshot
call is a viewport capture. -/
theorem c4_counterexample :
    script.getLast? = some (Step.screenshot verificationPath false) ∧
      script.filterMap screenshotFullPage = [false] := by
  decide

/-- C4 (amended): the final step captures a viewport (not full-page)
screenshot and persists it to the fixed path, overwriting whatever was
there: after any successful run the file holds exactly the captured
bytes, whatever the prior filesystem contents, and is non-empty whenever
the driver produced a non-empty encoding. -/
theorem c4_theorem (o : Oracle) (fs : FS)
    (hok : runOk o 0 script = true) (himg : o.imageAt 12 ≠ []) :
    runFS o 0 script fs verificationPath = some (o.imageAt 12) ∧ o.imageAt 12 ≠ [] := by
  refine ⟨?_, himg⟩
  rw [runFS_of_ok o script 0 fs hok]
  rw [show effectsFold o 0 script fs = fsWrite verificationPath (o.imageAt 12) fs from rfl]
  simp [fsWrite]

/-- C4 (witness): a concrete fully successful run writes the captured
bytes to the verification path. -/
theorem c4_witness :
    runFS (okOracle "Morning Walk") 0 script emptyFS verificationPath = some pngBytes ∧
      pngBytes ≠ [] :=
  c4_theorem (okOracle "Morning Walk") emptyFS (by decide) (by decide)

/-- C5: the first failing call aborts the run — the calls issued are
exactly the maximal successful prefix of the fixed sequence followed by
the failing call, so nothing after a failure is performed; and the run
succeeds iff every call, the final screenshot included, succeeds. -/
theorem c5_theorem (o : Oracle) :
    runTrace o 0 script = script.take (okCount o 0 script + 1) ∧
      (runOk o 0 script = true ↔ okCount o 0 script = script.length) :=
  runTrace_take_okCount o script 0

/-- C8: the script reads no configuration — every issued call is drawn
from the fixed literal sequence, and two runs whose drivers report the
same page observations issue the identical call sequence. -/
theorem c8_theorem (o₁ o₂ : Oracle) (h : ∀ i, o₁.pageAt i = o₂.pageAt i) :
    runTrace o₁ 0 script = runTrace o₂ 0 script ∧
      ∃ k, runTrace o₁ 0 script = script.take k :=
  ⟨runTrace_congr o₁ o₂ script 0 h,
   okCount o₁ 0 script + 1, (runTrace_take_okCount o₁ script 0).1⟩

/-- C8 (witness): two oracles with the same page observations but
different captured images drive identical call sequences. -/
theorem c8_witness :
    runTrace (okOracle "Morning Walk") 0 script = runTrace okOracle2 0 script ∧
      ∃ k, runTrace (okOracle "Morning Walk") 0 script = script.take k :=
  c8_theorem (okOracle "Morning Walk") okOracle2 (fun _ => rfl)

/-- C9: if any action or assertion — the calls before the screenshot —
fails, the screenshot call is never issued and the filesystem is left
unchanged by the run. -/
theorem c9_theorem (o : Oracle) (fs : FS) (h : runOk o 0 script.dropLast = false) :
    (∀ p b, Step.screenshot p b ∉ runTrace o 0 script) ∧ runFS o 0 script fs = fs := by
  have hsplit : script = script.dropLast ++ [Step.screenshot verificationPath false] := by
    decide
  have hnoshot : ∀ p b, Step.screenshot p b ∉ script.dropLast := by
    intro p b hm
    simp [script, List.dropLast] at hm
  constructor
  · intro p b hm
    rw [hsplit, runTrace_append_of_fail o _ _ 0 h] at hm
    have hsub : runTrace o 0 script.dropLast ⊆ script.dropLast := by
      rw [(runTrace_take_okCount o script.dropLast 0).1]
      exact List.take_subset _ _
    exact hnoshot p b (hsub hm)
  · rw [hsplit, runFS_append_of_fail o _ _ 0 fs h]
    exact runFS_eq_of_no_shot o _ 0 fs hnoshot

/-- C9 (witness): with a driver that times out at once, the filesystem is
untouched. -/
theorem c9_witness : runFS failOracle 0 script emptyFS = emptyFS :=
  (c9_theorem failOracle emptyFS (by decide)).2

/-- C2 (counterexample): the claim says the script asserts the original
route name is no longer displayed.  It does not: under this oracle every
call of the script succeeds even though the final list page still shows a
visible element with the old name "Morning Walk". -/
theorem c2_counterexample :
    runOk (okOracle "Morning Walk") 0 script = true ∧
      ({ role := "listitem", name := "Morning Walk", text := "Morning Walk",
          visible := true } : Element) ∈ (finalPage "Morning Walk").elements ∧
      containsCI "New Route Name" "Morning Walk" = false := by
  decide

/-- C2 (amended): after saving, the script asserts that "New Route Name"
is displayed, but it makes no assertion about the original name: for every
old name that does not contain the new one, a run whose final list page
still shows the old name succeeds in full. -/
theorem c2_theorem (oldName : String) (h : containsCI "New Route Name" oldName = false) :
    runOk (okOracle oldName) 0 script = true ∧
      ({ role := "listitem", name := oldName, text := oldName, visible := true } :
          Element) ∈ (finalPage oldName).elements := by
  refine ⟨?_, by simp [finalPage]⟩
  have hfil : textMatches "New Route Name" (finalPage oldName) =
      [{ role := "listitem", name := "New Route Name", text := "New Route Name",
          visible := true }] := by
    simp only [textMatches, finalPage, List.filter_cons, List.filter_nil]
    rw [if_neg (by decide), if_pos (by decide), if_neg (by simp [h])]
  have h10 : stepOk (okOracle oldName) 10
      (Step.assertVisibleRole "heading" (NameArg.str "Saved Routes")) = true := rfl
  have h11 : stepOk (okOracle oldName) 11 (Step.assertVisibleText "New Route Name") = true := by
    show evalStep (finalPage oldName) (Step.assertVisibleText "New Route Name") = true
    simp only [evalStep]
    rw [hfil]
  have h12 : stepOk (okOracle oldName) 12 (Step.screenshot verificationPath false) = true := rfl
  have h09 : runOk (okOracle oldName) 0 (script.take 10) = true := rfl
  have h1012 : runOk (okOracle oldName) 10 (script.drop 10) = true := by
    rw [show script.drop 10 =
        [Step.assertVisibleRole "heading" (NameArg.str "Saved Routes"),
         Step.assertVisibleText "New Route Name",
         Step.screenshot verificationPath false] from rfl]
    simp only [runOk]
    rw [h10, h11, h12]
    rfl
  have hsplit := runOk_append (okOracle oldName) (script.take 10) (script.drop 10) 0
  rw [List.take_append_drop] at hsplit
  rw [hsplit, h09]
  simpa using h1012

/-- C2 (witness): a concrete fully successful run whose final page still
shows the old name "Old Trail". -/
theorem c2_witness :
    runOk (okOracle "Old Trail") 0 script = true ∧
      ({ role := "listitem", name := "Old Trail", text := "Old Trail", visible := true } :
          Element) ∈ (finalPage "Old Trail").elements :=
  c2_theorem "Old Trail" (by decide)

/-- C3 (counterexample): the claim says the heading assertions match by
exact text, rejecting headings that merely contain the string or differ in
case.  They do not: a visible heading named "Edit Route Details" satisfies
the "Edit Route" assertion, and one named "SAVED ROUTES" satisfies the
"Saved Routes" assertion. -/
theorem c3_counterexample :
    evalStep (oneHeading "Edit Route Details")
        (Step.assertVisibleRole "heading" (NameArg.str "Edit Route")) = true ∧
      "Edit Route Details" ≠ "Edit Route" ∧
      evalStep (oneHeading "SAVED ROUTES")
        (Step.assertVisibleRole "heading" (NameArg.str "Saved Routes")) = true ∧
      "SAVED ROUTES" ≠ "Saved Routes" := by
  decide

/-- C3 (amended): the two heading assertions match the accessible name
case-insensitively by substring (the `exact` option defaults to `False`):
on a page whose single element is a visible heading named `n`, each
assertion succeeds exactly when `n` contains its target string up to
case. -/
theorem c3_theorem (n : String) :
    evalStep (oneHeading n) (Step.assertVisibleRole "heading" (NameArg.str "Edit Route")) =
        containsCI "Edit Route" n ∧
      evalStep (oneHeading n) (Step.assertVisibleRole "heading" (NameArg.str "Saved Routes")) =
        containsCI "Saved Routes" n := by
  have gen : ∀ pat, evalStep (oneHeading n)
      (Step.assertVisibleRole "heading" (NameArg.str pat)) = containsCI pat n := by
    intro pat
    cases h : containsCI pat n with
    | true => simp [evalStep, roleMatches, oneHeading, nameMatches, h]
    | false => simp [evalStep, roleMatches, oneHeading, nameMatches, h]
  exact ⟨gen "Edit Route", gen "Saved Routes"⟩

/-- C6: the edit-link locator resolves, in document order, to exactly the
visible link elements whose accessible name matches the case-sensitive
pattern "Edit route"; activating `.first` targets the first such element,
and when none exists the click fails — an action failure that aborts the
run — rather than being skipped.  The match is case-sensitive: a link
named "edit route 1" does not match. -/
theorem c6_theorem (st : PageState) :
    (∀ e, e ∈ roleMatches "link" (NameArg.regex editRouteToks) st ↔
        e ∈ st.elements ∧ e.role = "link" ∧ e.visible = true ∧
          rsearch editRouteToks e.name.toList = true) ∧
      (roleMatches "link" (NameArg.regex editRouteToks) st = [] →
        evalStep st editLinkStep = false) ∧
      (∀ e rest, roleMatches "link" (NameArg.regex editRouteToks) st = e :: rest →
        evalStep st editLinkStep = true ∧ clickTarget st editLinkStep = some e) ∧
      nameMatches (NameArg.regex editRouteToks) "edit route 1" = false := by
  refine ⟨?_, ?_, ?_, by decide⟩
  · intro e
    simp [roleMatches, List.mem_filter, nameMatches, and_assoc]
  · intro hempty
    simp [evalStep, editLinkStep, hempty]
  · intro e rest hcons
    exact ⟨by simp [evalStep, editLinkStep, hcons],
           by simp [clickTarget, editLinkStep, hcons]⟩

/-- C6 (witness): on a list page with no routes the click fails; on the
populated list page the first matching link is the one activated. -/
theorem c6_witness :
    evalStep emptyPage editLinkStep = false ∧
      (evalStep listPage editLinkStep = true ∧
        clickTarget listPage editLinkStep = some editLinkEl) :=
  ⟨(c6_theorem emptyPage).2.1 rfl, (c6_theorem listPage).2.2.1 editLinkEl [] (by decide)⟩

/-- C7: the script's fill step targets the control matched by the "Name"
label and replaces its whole value: whatever the control's prior value,
afterwards its value is exactly "New Route Name" (nothing is appended),
and every other control is untouched. -/
theorem c7_theorem (l : List LabeledField) (i : Nat) (f : LabeledField)
    (hi : l.get? i = some f) (hm : labelFieldMatches "Name" f = true)
    (hfirst : ∀ j g, j < i → l.get? j = some g → labelFieldMatches "Name" g = false) :
    Step.fillLabel "Name" "New Route Name" ∈ script ∧
      (fillFields "Name" "New Route Name" l).get? i =
        some { label := f.label, value := "New Route Name" } ∧
      ∀ j, j ≠ i → (fillFields "Name" "New Route Name" l).get? j = l.get? j :=
  ⟨by decide, (fillFields_spec "New Route Name" l i f hi hm hfirst).1,
   (fillFields_spec "New Route Name" l i f hi hm hfirst).2⟩

/-- C7 (witness): filling the demo control (label "Route Name", prior
value "Morning Walk") leaves exactly the value "New Route Name". -/
theorem c7_witness :
    (fillFields "Name" "New Route Name" demoFields).get? 0 =
      some { label := "Route Name", value := "New Route Name" } :=
  (c7_theorem demoFields 0 { label := "Route Name", value := "Morning Walk" } rfl
    (by decide) (fun j _ hj _ => absurd hj (Nat.not_lt_zero j))).2.1

/-- C10: `get_by_label("Name")` matches labels case-insensitively by
substring: every label that contains "Name" — in particular "Route Name"
and "name" — satisfies the locator, not only the exact label "Name". -/
theorem c10_theorem :
    (∀ pre suf v : String,
        labelFieldMatches "Name" { label := pre ++ "Name" ++ suf, value := v } = true) ∧
      labelFieldMatches "Name" { label := "Route Name", value := "" } = true ∧
      labelFieldMatches "Name" { label := "name", value := "" } = true ∧
      labelFieldMatches "Name" { label := "Title", value := "" } = false ∧
      Step.fillLabel "Name" "New Route Name" ∈ script := by
  refine ⟨?_, by decide, by decide, by decide, by decide⟩
  intro pre suf v
  show containsCI "Name" (pre ++ "Name" ++ suf) = true
  have hsubject : lowerChars (pre ++ "Name" ++ suf).toList =
      lowerChars pre.toList ++ (lowerChars "Name".toList ++ lowerChars suf.toList) := by
    show List.map Char.toLower ((pre.toList ++ "Name".toList) ++ suf.toList) = _
    rw [List.map_append, List.map_append, List.append_assoc]
    rfl
  rw [containsCI, hsubject]
  exact subChars_of_append _ _ _
    (prefixChars_append (lowerChars "Name".toList) (lowerChars suf.toList))

end Traillog
